import Mathlib

/-!
Shallow embedding of the Wemos24128 LED driver sources
(src/NeoPixelBus_Driver.h and src/Colors.h) and proofs about them.

Machine integers are modelled as Nat/Int with explicit reductions
mod 2^w exactly where the C types make overflow possible; the C float
`brightness` is modelled exactly as a rational, with the C float-to-uint8
truncation modelled as floor.  The NeoPixelBus library itself (the bus
handle `strip`, the gamma table `colorGamma`) is external to the
repository, so the frame buffer is modelled as a total map from pixel
index to staged RGB value, the number of strip.Show calls is counted
explicitly, and the gamma lookup is an abstract parameter of the
configuration, as are the compile-time constants PIXEL_COUNT,
LARGE_RING_OFFSET, SMALL_RING_OFFSET and STRIP_OFFSET that the
surrounding firmware supplies.
-/

set_option maxRecDepth 100000

/-- The RgbColor value handed to the bus: three 8-bit channels. -/
structure RgbColor where
  R : ℕ
  G : ℕ
  B : ℕ
deriving DecidableEq

/-- Compile-time constants and library collaborators that are external to
the two source headers: the pixel count, the three zone offsets, and the
gamma-correction lookup performed by colorGamma.Correct. -/
structure Config where
  gamma : RgbColor → RgbColor
  PIXEL_COUNT : ℕ
  LARGE_RING_OFFSET : ℕ
  SMALL_RING_OFFSET : ℕ
  STRIP_OFFSET : ℕ

/-- State owned by the driver: the process-wide brightness, the staged
frame buffer inside the bus, the pixels last made visible on the physical
strip, and a count of flush (strip.Show) operations. -/
structure DriverState where
  brightness : ℚ
  frame : ℕ → RgbColor
  shown : ℕ → RgbColor
  flushCount : ℕ

/-- Initial state of the statics in NeoPixelBus_Driver.h: the C++
`static float brightness;` is zero-initialized, and the bus buffers start
cleared. -/
def initialState : DriverState :=
  { brightness := 0
    frame := fun _ => ⟨0, 0, 0⟩
    shown := fun _ => ⟨0, 0, 0⟩
    flushCount := 0 }

/-- createColor from src/Colors.h: the int arguments are converted to
uint32_t (mod 2^32) where the C conversions happen, then packed by two
shift-by-8 / bitwise-or steps. -/
def createColor (red green blue : ℤ) : ℕ :=
  let color : ℕ := (red % (2 ^ 32 : ℤ)).toNat
  let color := (color <<< 8) % 2 ^ 32
  let color := color ||| (green % (2 ^ 32 : ℤ)).toNat
  let color := (color <<< 8) % 2 ^ 32
  color ||| (blue % (2 ^ 32 : ℤ)).toNat

/-- setBrightness from src/NeoPixelBus_Driver.h: clamp below at 0.01,
then above at 0.8, and store. -/
def setBrightness (s : DriverState) (value : ℚ) : DriverState :=
  let value := if value < 1 / 100 then 1 / 100 else value
  let value := if value > 8 / 10 then 8 / 10 else value
  { s with brightness := value }

/-- One channel of `(color & 0xFF) * brightness` assigned to a uint8_t
field: exact rational product, truncated toward zero. -/
def scaleChan (b : ℚ) (c : ℕ) : ℕ :=
  (⌊(c : ℚ) * b⌋).toNat

/-- showPixels from src/NeoPixelBus_Driver.h: strip.Show makes the staged
frame visible and is the flush operation we count. -/
def showPixels (s : DriverState) : DriverState :=
  { s with shown := s.frame, flushCount := s.flushCount + 1 }

/-- initPixels from src/NeoPixelBus_Driver.h: strip.Begin resets every
pixel to an off state, then strip.Show. -/
def initPixels (s : DriverState) : DriverState :=
  showPixels { s with frame := fun _ => ⟨0, 0, 0⟩ }

/-- setPixelColor from src/NeoPixelBus_Driver.h: peel the blue, green and
red channels off `color` low byte first, scale each by the brightness,
gamma-correct the triple and stage it in the frame buffer at `num`. -/
def setPixelColor (cfg : Config) (s : DriverState) (num : ℕ) (color : ℕ) : DriverState :=
  let b := scaleChan s.brightness (color &&& 0xFF)
  let color := color >>> 8
  let g := scaleChan s.brightness (color &&& 0xFF)
  let color := color >>> 8
  let r := scaleChan s.brightness (color &&& 0xFF)
  let rgbColor := cfg.gamma ⟨r, g, b⟩
  { s with frame := Function.update s.frame num rgbColor }

/-- clearAllPixels from src/NeoPixelBus_Driver.h. -/
def clearAllPixels (cfg : Config) (s : DriverState) : DriverState :=
  showPixels ((List.range cfg.PIXEL_COUNT).foldl (fun s i => setPixelColor cfg s i 0) s)

/-- setAllPixels from src/NeoPixelBus_Driver.h. -/
def setAllPixels (cfg : Config) (color : ℕ) (s : DriverState) : DriverState :=
  showPixels ((List.range cfg.PIXEL_COUNT).foldl (fun s i => setPixelColor cfg s i color) s)

/-- setLargeRingColor from src/Colors.h: 24 pixels starting at
LARGE_RING_OFFSET, then one showPixels. -/
def setLargeRingColor (cfg : Config) (color : ℕ) (s : DriverState) : DriverState :=
  showPixels ((List.range 24).foldl
    (fun s i => setPixelColor cfg s (cfg.LARGE_RING_OFFSET + i) color) s)

/-- setSmallRingColor from src/Colors.h: 12 pixels starting at
SMALL_RING_OFFSET, then one showPixels. -/
def setSmallRingColor (cfg : Config) (color : ℕ) (s : DriverState) : DriverState :=
  showPixels ((List.range 12).foldl
    (fun s i => setPixelColor cfg s (cfg.SMALL_RING_OFFSET + i) color) s)

/-- setStripColor from src/Colors.h: 8 pixels starting at STRIP_OFFSET,
then one showPixels. -/
def setStripColor (cfg : Config) (color : ℕ) (s : DriverState) : DriverState :=
  showPixels ((List.range 8).foldl
    (fun s i => setPixelColor cfg s (cfg.STRIP_OFFSET + i) color) s)

/-- wheel from src/Colors.h: the argument is a byte, so it is reduced
mod 256; the per-segment channel arithmetic is done in C `int`, which is
exact, hence integer arguments to createColor. -/
def wheel (wheelPos0 : ℕ) : ℕ :=
  let wheelPos := wheelPos0 % 256
  if wheelPos < 85 then
    createColor (wheelPos * 3) (255 - (wheelPos : ℤ) * 3) 0
  else if wheelPos < 170 then
    createColor (255 - ((wheelPos : ℤ) - 85) * 3) 0 ((wheelPos - 85) * 3)
  else
    createColor 0 ((wheelPos - 170) * 3) (255 - ((wheelPos : ℤ) - 170) * 3)

/-- delay from the Arduino runtime: no effect on the driver state. -/
def delay (_wait : ℕ) (s : DriverState) : DriverState := s

/-- rainbowCycle from src/Colors.h: 256 * 3 steps; at step j every pixel i
gets wheel(((i * 256 / PIXEL_COUNT) + j) & 255), where i and j live in
uint16_t so the products and sums reduce mod 2^16; then one showPixels and
a delay. -/
def rainbowCycle (cfg : Config) (wait : ℕ) (s : DriverState) : DriverState :=
  (List.range (256 * 3)).foldl (fun s j =>
    delay wait (showPixels ((List.range cfg.PIXEL_COUNT).foldl
      (fun s i =>
        setPixelColor cfg s i
          (wheel ((i * 256 % 2 ^ 16 / cfg.PIXEL_COUNT + j) % 2 ^ 16 &&& 255))) s))) s

/-- Observable events of the animation loop, for stating the order of
pixel writes, flushes and delays. -/
inductive Event where
  | setPix (i : ℕ) (color : ℕ)
  | flush
  | delay (w : ℕ)
deriving DecidableEq

/-- Recognizer for flush events. -/
def isFlush : Event → Bool
  | Event.flush => true
  | _ => false

/-- Event trace of rainbowCycle, read off the same loop as `rainbowCycle`:
for each step j, the pass over all pixels, then the flush, then the
delay. -/
def rainbowCycleTrace (cfg : Config) (wait : ℕ) : List Event :=
  (List.range (256 * 3)).flatMap (fun j =>
    (List.range cfg.PIXEL_COUNT).map
      (fun i => Event.setPix i (wheel ((i * 256 % 2 ^ 16 / cfg.PIXEL_COUNT + j) % 2 ^ 16 &&& 255)))
      ++ [Event.flush, Event.delay wait])

/-- The value setPixelColor stages for a packed color at a given
brightness: channels taken from bits 16-23 (red), 8-15 (green) and 0-7
(blue), each brightness-scaled, then gamma-corrected. -/
def adjust (cfg : Config) (b : ℚ) (color : ℕ) : RgbColor :=
  cfg.gamma
    ⟨scaleChan b (color >>> 16 &&& 255), scaleChan b (color >>> 8 &&& 255),
      scaleChan b (color &&& 255)⟩

/-- Sum of the three 8-bit channels of a packed color. -/
def channelSum (c : ℕ) : ℕ :=
  (c >>> 16 &&& 255) + (c >>> 8 &&& 255) + (c &&& 255)

/-- A concrete configuration for evaluating the theorems: identity gamma,
44 pixels (24 + 12 + 8), zones laid out consecutively. -/
def cfg44 : Config :=
  { gamma := id
    PIXEL_COUNT := 44
    LARGE_RING_OFFSET := 0
    SMALL_RING_OFFSET := 24
    STRIP_OFFSET := 36 }

/-- Generalized pixel-filling loop: visit indices 0..n-1, staging color
c i at pixel g i.  Every loop in the two headers is an instance. -/
def fillFold (cfg : Config) (g : ℕ → ℕ) (c : ℕ → ℕ) (n : ℕ) (s : DriverState) :
    DriverState :=
  (List.range n).foldl (fun s i => setPixelColor cfg s (g i) (c i)) s

lemma and_255_eq_mod (x : ℕ) : x &&& 255 = x % 256 := by
  have h := Nat.and_pow_two_sub_one_eq_mod x 8
  norm_num at h
  exact h

lemma setPixelColor_eq (cfg : Config) (s : DriverState) (num color : ℕ) :
    setPixelColor cfg s num color =
      { s with frame := Function.update s.frame num (adjust cfg s.brightness color) } := by
  have h : color >>> 8 >>> 8 = color >>> 16 := by
    rw [Nat.shiftRight_eq_div_pow, Nat.shiftRight_eq_div_pow, Nat.shiftRight_eq_div_pow,
      Nat.div_div_eq_div_mul]
  simp only [setPixelColor, adjust, h]

lemma range_add_one (n : ℕ) : List.range (n + 1) = List.range n ++ [n] := by
  simpa using List.range_succ n

lemma fillFold_succ (cfg : Config) (g c : ℕ → ℕ) (n : ℕ) (s : DriverState) :
    fillFold cfg g c (n + 1) s =
      setPixelColor cfg (fillFold cfg g c n s) (g n) (c n) := by
  unfold fillFold
  rw [range_add_one, List.foldl_append]
  rfl

lemma fillFold_brightness (cfg : Config) (g c : ℕ → ℕ) :
    ∀ (n : ℕ) (s : DriverState), (fillFold cfg g c n s).brightness = s.brightness := by
  intro n
  induction n with
  | zero => intro s; rfl
  | succ n ih =>
    intro s
    rw [fillFold_succ, setPixelColor_eq]
    exact ih s

lemma fillFold_flushCount (cfg : Config) (g c : ℕ → ℕ) :
    ∀ (n : ℕ) (s : DriverState), (fillFold cfg g c n s).flushCount = s.flushCount := by
  intro n
  induction n with
  | zero => intro s; rfl
  | succ n ih =>
    intro s
    rw [fillFold_succ, setPixelColor_eq]
    exact ih s

lemma fillFold_shown (cfg : Config) (g c : ℕ → ℕ) :
    ∀ (n : ℕ) (s : DriverState), (fillFold cfg g c n s).shown = s.shown := by
  intro n
  induction n with
  | zero => intro s; rfl
  | succ n ih =>
    intro s
    rw [fillFold_succ, setPixelColor_eq]
    exact ih s

lemma fillFold_frame_of_forall_ne (cfg : Config) (g c : ℕ → ℕ) :
    ∀ (n : ℕ) (s : DriverState) (p : ℕ), (∀ k, k < n → p ≠ g k) →
      (fillFold cfg g c n s).frame p = s.frame p := by
  intro n
  induction n with
  | zero => intro s p _; rfl
  | succ n ih =>
    intro s p hp
    rw [fillFold_succ, setPixelColor_eq]
    have hne : p ≠ g n := hp n (Nat.lt_succ_self n)
    simp only [Function.update_noteq hne]
    exact ih s p (fun k hk => hp k (Nat.lt_succ_of_lt hk))

lemma fillFold_frame_of_lt (cfg : Config) (g c : ℕ → ℕ)
    (hg : Function.Injective g) :
    ∀ (n : ℕ) (s : DriverState) (k : ℕ), k < n →
      (fillFold cfg g c n s).frame (g k) = adjust cfg s.brightness (c k) := by
  intro n
  induction n with
  | zero => intro s k hk; exact absurd hk (Nat.not_lt_zero k)
  | succ n ih =>
    intro s k hk
    rw [fillFold_succ, setPixelColor_eq]
    rcases Nat.lt_succ_iff_lt_or_eq.mp hk with h | h
    · have hne : g k ≠ g n := fun e => absurd (hg e) (Nat.ne_of_lt h)
      simp only [Function.update_noteq hne]
      exact ih s k h
    · subst h
      simp only [Function.update_same]
      rw [fillFold_brightness]

lemma foldl_flushCount_add_length (step : DriverState → ℕ → DriverState)
    (hstep : ∀ (s : DriverState) (j : ℕ), (step s j).flushCount = s.flushCount + 1) :
    ∀ (l : List ℕ) (s : DriverState),
      (l.foldl step s).flushCount = s.flushCount + l.length := by
  intro l
  induction l with
  | nil => intro s; simp
  | cons a l ih =>
    intro s
    rw [List.foldl_cons, ih, hstep]
    simp only [List.length_cons]
    omega

lemma shiftRight_8_eq (x : ℕ) : x >>> 8 = x / 256 := by
  rw [Nat.shiftRight_eq_div_pow]

lemma shiftRight_16_eq (x : ℕ) : x >>> 16 = x / 65536 := by
  rw [Nat.shiftRight_eq_div_pow]

lemma createColor_eq (r g b : ℕ) (hr : r < 256) (hg : g < 256) (hb : b < 256) :
    createColor (r : ℤ) (g : ℤ) (b : ℤ) = 65536 * r + 256 * g + b := by
  have er : (((r : ℤ) % 2 ^ 32)).toNat = r := by omega
  have eg : (((g : ℤ) % 2 ^ 32)).toNat = g := by omega
  have eb : (((b : ℤ) % 2 ^ 32)).toNat = b := by omega
  unfold createColor
  simp only [er, eg, eb, Nat.shiftLeft_eq]
  have h1 : r * 2 ^ 8 % 2 ^ 32 = 2 ^ 8 * r := by
    rw [Nat.mod_eq_of_lt (by omega)]
    ring
  rw [h1]
  have h2 : 2 ^ 8 * r ||| g = 2 ^ 8 * r + g := (Nat.mul_add_lt_is_or (by omega) r).symm
  rw [h2]
  have h3 : (2 ^ 8 * r + g) * 2 ^ 8 % 2 ^ 32 = 2 ^ 8 * (2 ^ 8 * r + g) := by
    rw [Nat.mod_eq_of_lt (by omega)]
    ring
  rw [h3]
  have h4 : 2 ^ 8 * (2 ^ 8 * r + g) ||| b = 2 ^ 8 * (2 ^ 8 * r + g) + b :=
    (Nat.mul_add_lt_is_or (by omega) (2 ^ 8 * r + g)).symm
  rw [h4]
  ring

/-- Claim C1, counterexample: the claim as stated is false on the code.
wheel 0 is not pure red, wheel 85 is not pure blue, and wheel 170 is not
pure green. -/
theorem C1_counterexample :
    wheel 0 ≠ createColor 255 0 0 ∧ wheel 85 ≠ createColor 0 0 255 ∧
      wheel 170 ≠ createColor 0 255 0 := by
  decide

/-- Claim C1, amended: wheel 0 returns pure green (createColor 0 255 0),
wheel 85 returns pure red (createColor 255 0 0), and wheel 170 returns
pure blue (createColor 0 0 255). -/
theorem C1_wheel_landmarks :
    wheel 0 = createColor 0 255 0 ∧ wheel 85 = createColor 255 0 0 ∧
      wheel 170 = createColor 0 0 255 := by
  decide

/-- Claim C2: for every red, green, blue in [0, 255], extracting the three
8-bit channels of createColor red green blue by the shift/mask scheme of
setPixelColor (blue = bits 0-7, green = bits 8-15, red = bits 16-23)
yields back exactly the original red, green and blue. -/
theorem C2_createColor_roundTrip (r g b : ℕ)
    (hr : r < 256) (hg : g < 256) (hb : b < 256) :
    createColor (r : ℤ) (g : ℤ) (b : ℤ) >>> 16 &&& 255 = r ∧
      createColor (r : ℤ) (g : ℤ) (b : ℤ) >>> 8 &&& 255 = g ∧
      createColor (r : ℤ) (g : ℤ) (b : ℤ) &&& 255 = b := by
  refine ⟨?_, ?_, ?_⟩ <;> rw [createColor_eq r g b hr hg hb]
  · rw [shiftRight_16_eq, and_255_eq_mod]
    omega
  · rw [shiftRight_8_eq, and_255_eq_mod]
    omega
  · rw [and_255_eq_mod]
    omega

/-- Witness for C2 at red 12, green 34, blue 56. -/
theorem C2_createColor_roundTrip_witness :
    createColor ((12 : ℕ) : ℤ) ((34 : ℕ) : ℤ) ((56 : ℕ) : ℤ) >>> 16 &&& 255 = 12 ∧
      createColor ((12 : ℕ) : ℤ) ((34 : ℕ) : ℤ) ((56 : ℕ) : ℤ) >>> 8 &&& 255 = 34 ∧
      createColor ((12 : ℕ) : ℤ) ((34 : ℕ) : ℤ) ((56 : ℕ) : ℤ) &&& 255 = 56 :=
  C2_createColor_roundTrip 12 34 56 (by norm_num) (by norm_num) (by norm_num)

/-- Claim C8: createColor does no range validation; with red 0 and an
out-of-range green of 256, the red channel of the packed result (bits
16-23) is 1, not the red value 0 that was passed in: the overflowing
green corrupts the neighbouring red channel via the bit shift. -/
theorem C8_createColor_overflow_corrupts :
    ∃ red green blue : ℤ, 255 < green ∧ 0 ≤ red ∧
      createColor red green blue >>> 16 &&& 255 ≠ red.toNat :=
  ⟨0, 256, 0, by norm_num, by norm_num, by decide⟩

/-- Claim C3: setBrightness stores a value that always lies in
[0.01, 0.8]; inputs below 0.01 store 0.01, inputs above 0.8 store 0.8,
and in-range inputs are stored unchanged.  setBrightness is total, so it
never fails. -/
theorem C3_setBrightness_clamps (s : DriverState) (value : ℚ) :
    (1 / 100 ≤ (setBrightness s value).brightness ∧
      (setBrightness s value).brightness ≤ 8 / 10) ∧
    (value < 1 / 100 → (setBrightness s value).brightness = 1 / 100) ∧
    (value > 8 / 10 → (setBrightness s value).brightness = 8 / 10) ∧
    (1 / 100 ≤ value → value ≤ 8 / 10 → (setBrightness s value).brightness = value) := by
  have hb : (setBrightness s value).brightness =
      if value < 1 / 100 then 1 / 100 else if value > 8 / 10 then 8 / 10 else value := by
    unfold setBrightness
    by_cases h1 : value < 1 / 100
    · simp only [if_pos h1]
      norm_num
    · simp only [if_neg h1]
  rw [hb]
  split_ifs with h1 h2
  · exact ⟨⟨le_refl _, by norm_num⟩, fun _ => rfl, fun h => by linarith,
      fun h _ => by linarith⟩
  · exact ⟨⟨by norm_num, le_refl _⟩, fun h => absurd h h1, fun _ => rfl,
      fun _ hb2 => by linarith⟩
  · have hge : 1 / 100 ≤ value := le_of_not_lt h1
    have hle : value ≤ 8 / 10 := le_of_not_lt h2
    exact ⟨⟨hge, hle⟩, fun h => absurd h h1, fun h => absurd h h2, fun _ _ => rfl⟩

/-- Witness for C3: setBrightness of -5 stores 0.01, of 5 stores 0.8, and
of 0.5 stores 0.5. -/
theorem C3_setBrightness_clamps_witness :
    (setBrightness initialState (-5)).brightness = 1 / 100 ∧
      (setBrightness initialState 5).brightness = 8 / 10 ∧
      (setBrightness initialState (1 / 2)).brightness = 1 / 2 :=
  ⟨(C3_setBrightness_clamps initialState (-5)).2.1 (by norm_num),
    (C3_setBrightness_clamps initialState 5).2.2.1 (by norm_num),
    (C3_setBrightness_clamps initialState (1 / 2)).2.2.2 (by norm_num) (by norm_num)⟩

/-- Claim C7: setPixelColor stages, at position num of the frame buffer,
the gamma correction of the brightness-scaled channels taken from bits
16-23 (red), 8-15 (green) and 0-7 (blue) of the color, and changes
nothing else: no flush happens and the physical strip is untouched. -/
theorem C7_setPixelColor_stages (cfg : Config) (s : DriverState) (num color : ℕ) :
    setPixelColor cfg s num color =
      { s with frame := Function.update s.frame num (adjust cfg s.brightness color) } ∧
    (setPixelColor cfg s num color).flushCount = s.flushCount ∧
    (setPixelColor cfg s num color).shown = s.shown := by
  refine ⟨setPixelColor_eq cfg s num color, ?_, ?_⟩ <;> rw [setPixelColor_eq]

/-- Claim C10: the process-wide brightness starts at 0, which is outside
[0.01, 0.8]; initPixels leaves it untouched; and while the brightness is
0, setPixelColor scales every channel to 0, so it stages the gamma
correction of black, which is black itself whenever the gamma lookup
fixes black. -/
theorem C10_initial_brightness_zero :
    initialState.brightness = 0 ∧
    ¬ (1 / 100 ≤ initialState.brightness) ∧
    (∀ s : DriverState, (initPixels s).brightness = s.brightness) ∧
    (∀ (cfg : Config) (s : DriverState) (num color : ℕ), s.brightness = 0 →
      (setPixelColor cfg s num color).frame num = cfg.gamma ⟨0, 0, 0⟩) ∧
    (∀ (cfg : Config) (s : DriverState) (num color : ℕ), s.brightness = 0 →
      cfg.gamma ⟨0, 0, 0⟩ = ⟨0, 0, 0⟩ →
      (setPixelColor cfg s num color).frame num = ⟨0, 0, 0⟩) := by
  have key : ∀ (cfg : Config) (s : DriverState) (num color : ℕ), s.brightness = 0 →
      (setPixelColor cfg s num color).frame num = cfg.gamma ⟨0, 0, 0⟩ := by
    intro cfg s num color h
    rw [setPixelColor_eq]
    show Function.update s.frame num (adjust cfg s.brightness color) num = _
    rw [Function.update_same, h]
    unfold adjust scaleChan
    norm_num
  refine ⟨rfl, by norm_num [initialState], fun s => rfl, key, ?_⟩
  intro cfg s num color h hγ
  rw [key cfg s num color h, hγ]

/-- Witness for C10: with the zero initial brightness, staging full white
(0xFFFFFF) at pixel 3 under the identity gamma leaves the staged pixel
black. -/
theorem C10_initial_brightness_zero_witness :
    (setPixelColor cfg44 initialState 3 16777215).frame 3 = ⟨0, 0, 0⟩ :=
  C10_initial_brightness_zero.2.2.2.2 cfg44 initialState 3 16777215 rfl rfl

lemma zone_fill_spec (cfg : Config) (off color n : ℕ) (s : DriverState) :
    (∀ i, i < n →
      (showPixels (fillFold cfg (fun i => off + i) (fun _ => color) n s)).frame (off + i) =
        adjust cfg s.brightness color) ∧
    (∀ p, (∀ i, i < n → p ≠ off + i) →
      (showPixels (fillFold cfg (fun i => off + i) (fun _ => color) n s)).frame p =
        s.frame p) ∧
    (showPixels (fillFold cfg (fun i => off + i) (fun _ => color) n s)).flushCount =
      s.flushCount + 1 := by
  have hinj : Function.Injective (fun i => off + i) := fun a b h => Nat.add_left_cancel h
  refine ⟨?_, ?_, ?_⟩
  · intro i hi
    exact fillFold_frame_of_lt cfg (fun i => off + i) (fun _ => color) hinj n s i hi
  · intro p hp
    exact fillFold_frame_of_forall_ne cfg (fun i => off + i) (fun _ => color) n s p hp
  · show (fillFold cfg (fun i => off + i) (fun _ => color) n s).flushCount + 1 =
      s.flushCount + 1
    rw [fillFold_flushCount]

/-- Claim C5: setLargeRingColor stages the brightness-scaled,
gamma-adjusted color into exactly the 24 pixels LARGE_RING_OFFSET ..
LARGE_RING_OFFSET+23 and flushes exactly once, touching no other pixel;
setSmallRingColor does the same for the 12 pixels at SMALL_RING_OFFSET
and setStripColor for the 8 pixels at STRIP_OFFSET. -/
theorem C5_zone_setters (cfg : Config) (color : ℕ) (s : DriverState) :
    ((∀ i, i < 24 → (setLargeRingColor cfg color s).frame (cfg.LARGE_RING_OFFSET + i) =
        adjust cfg s.brightness color) ∧
      (∀ p, (∀ i, i < 24 → p ≠ cfg.LARGE_RING_OFFSET + i) →
        (setLargeRingColor cfg color s).frame p = s.frame p) ∧
      (setLargeRingColor cfg color s).flushCount = s.flushCount + 1) ∧
    ((∀ i, i < 12 → (setSmallRingColor cfg color s).frame (cfg.SMALL_RING_OFFSET + i) =
        adjust cfg s.brightness color) ∧
      (∀ p, (∀ i, i < 12 → p ≠ cfg.SMALL_RING_OFFSET + i) →
        (setSmallRingColor cfg color s).frame p = s.frame p) ∧
      (setSmallRingColor cfg color s).flushCount = s.flushCount + 1) ∧
    ((∀ i, i < 8 → (setStripColor cfg color s).frame (cfg.STRIP_OFFSET + i) =
        adjust cfg s.brightness color) ∧
      (∀ p, (∀ i, i < 8 → p ≠ cfg.STRIP_OFFSET + i) →
        (setStripColor cfg color s).frame p = s.frame p) ∧
      (setStripColor cfg color s).flushCount = s.flushCount + 1) :=
  ⟨zone_fill_spec cfg cfg.LARGE_RING_OFFSET color 24 s,
    zone_fill_spec cfg cfg.SMALL_RING_OFFSET color 12 s,
    zone_fill_spec cfg cfg.STRIP_OFFSET color 8 s⟩

/-- Witness for C5 under the concrete configuration: the large ring
stages adjusted color 7 at its sixth pixel, the small ring flushes once,
and the strip leaves pixel 100 untouched. -/
theorem C5_zone_setters_witness :
    (setLargeRingColor cfg44 7 initialState).frame (cfg44.LARGE_RING_OFFSET + 5) =
      adjust cfg44 initialState.brightness 7 ∧
    (setSmallRingColor cfg44 7 initialState).flushCount = initialState.flushCount + 1 ∧
    (setStripColor cfg44 7 initialState).frame 100 = initialState.frame 100 :=
  ⟨(C5_zone_setters cfg44 7 initialState).1.1 5 (by norm_num),
    (C5_zone_setters cfg44 7 initialState).2.1.2.2,
    (C5_zone_setters cfg44 7 initialState).2.2.2.1 100 (by decide)⟩

lemma adjust_zero (cfg : Config) (b : ℚ) : adjust cfg b 0 = cfg.gamma ⟨0, 0, 0⟩ := by
  unfold adjust scaleChan
  norm_num

/-- Claim C6: clearAllPixels stages color 0 (the gamma correction of the
all-zero channels, which is black whenever the gamma lookup fixes black)
into every one of the PIXEL_COUNT pixels and flushes exactly once. -/
theorem C6_clearAllPixels (cfg : Config) (s : DriverState) :
    (∀ i, i < cfg.PIXEL_COUNT → (clearAllPixels cfg s).frame i = cfg.gamma ⟨0, 0, 0⟩) ∧
    (cfg.gamma ⟨0, 0, 0⟩ = ⟨0, 0, 0⟩ →
      ∀ i, i < cfg.PIXEL_COUNT → (clearAllPixels cfg s).frame i = ⟨0, 0, 0⟩) ∧
    (clearAllPixels cfg s).flushCount = s.flushCount + 1 := by
  have hinj : Function.Injective (fun i : ℕ => i) := fun a b h => h
  have hframe : ∀ i, i < cfg.PIXEL_COUNT →
      (clearAllPixels cfg s).frame i = cfg.gamma ⟨0, 0, 0⟩ := by
    intro i hi
    have h := fillFold_frame_of_lt cfg (fun i : ℕ => i) (fun _ => 0) hinj
      cfg.PIXEL_COUNT s i hi
    rw [adjust_zero] at h
    exact h
  refine ⟨hframe, fun hγ i hi => by rw [hframe i hi, hγ], ?_⟩
  show (fillFold cfg (fun i : ℕ => i) (fun _ => 0) cfg.PIXEL_COUNT s).flushCount + 1 =
    s.flushCount + 1
  rw [fillFold_flushCount]

/-- Witness for C6 under the concrete configuration: pixel 0 is staged
black and exactly one flush happened. -/
theorem C6_clearAllPixels_witness :
    (clearAllPixels cfg44 initialState).frame 0 = ⟨0, 0, 0⟩ ∧
      (clearAllPixels cfg44 initialState).flushCount = initialState.flushCount + 1 :=
  ⟨(C6_clearAllPixels cfg44 initialState).2.1 rfl 0 (by decide),
    (C6_clearAllPixels cfg44 initialState).2.2⟩

lemma countP_flatMap_pass (pass : ℕ → List Event) (wait : ℕ)
    (hpass : ∀ j, (pass j).countP isFlush = 0) :
    ∀ l : List ℕ,
      (l.flatMap (fun j => pass j ++ [Event.flush, Event.delay wait])).countP isFlush =
        l.length := by
  intro l
  induction l with
  | nil => rfl
  | cons a l ih =>
    rw [List.flatMap_cons, List.countP_append, List.countP_append, hpass, ih,
      show ([Event.flush, Event.delay wait]).countP isFlush = 1 from rfl,
      List.length_cons]
    omega

lemma rainbow_arg_eq (PC : ℕ) (h0 : 0 < PC) (h256 : PC ≤ 256) (i j : ℕ)
    (hi : i < PC) (hj : j < 768) :
    (i * 256 % 2 ^ 16 / PC + j) % 2 ^ 16 &&& 255 = (i * 256 / PC + j) % 256 := by
  have e1 : i * 256 % 2 ^ 16 = i * 256 := Nat.mod_eq_of_lt (by omega)
  have e2 : i * 256 / PC < 256 := by
    rw [Nat.div_lt_iff_lt_mul h0]
    omega
  have e3 : (i * 256 / PC + j) % 2 ^ 16 = i * 256 / PC + j :=
    Nat.mod_eq_of_lt (by omega)
  rw [e1, e3, and_255_eq_mod]

/-- Claim C4: for any wait, rainbowCycle performs exactly 768 = 256 * 3
flushes; its event trace is exactly 768 rounds, each a full pass staging
pixel i with wheel ((i * 256 / PIXEL_COUNT + j) mod 256) for the current
step j, followed by one flush (and the delay).  Stated for any pixel
count that is positive and at most 256, so the uint16_t arithmetic of
the loop body does not wrap. -/
theorem C4_rainbowCycle_rounds (cfg : Config) (wait : ℕ) (s : DriverState)
    (h0 : 0 < cfg.PIXEL_COUNT) (h256 : cfg.PIXEL_COUNT ≤ 256) :
    (rainbowCycle cfg wait s).flushCount = s.flushCount + 768 ∧
    (rainbowCycleTrace cfg wait).countP isFlush = 768 ∧
    rainbowCycleTrace cfg wait =
      (List.range 768).flatMap (fun j =>
        (List.range cfg.PIXEL_COUNT).map
          (fun i => Event.setPix i (wheel ((i * 256 / cfg.PIXEL_COUNT + j) % 256))) ++
        [Event.flush, Event.delay wait]) := by
  refine ⟨?_, ?_, ?_⟩
  · have hstep : ∀ (t : DriverState) (j : ℕ),
        (delay wait (showPixels ((List.range cfg.PIXEL_COUNT).foldl
          (fun s i => setPixelColor cfg s i
            (wheel ((i * 256 % 2 ^ 16 / cfg.PIXEL_COUNT + j) % 2 ^ 16 &&& 255)))
          t))).flushCount = t.flushCount + 1 := by
      intro t j
      have h := fillFold_flushCount cfg (fun i => i)
        (fun i => wheel ((i * 256 % 2 ^ 16 / cfg.PIXEL_COUNT + j) % 2 ^ 16 &&& 255))
        cfg.PIXEL_COUNT t
      exact congrArg (fun x => x + 1) h
    have hmain := foldl_flushCount_add_length _ hstep (List.range (256 * 3)) s
    rw [List.length_range] at hmain
    exact hmain
  · have hpass : ∀ j : ℕ, ((List.range cfg.PIXEL_COUNT).map
        (fun i => Event.setPix i
          (wheel ((i * 256 % 2 ^ 16 / cfg.PIXEL_COUNT + j) % 2 ^ 16 &&& 255)))).countP
          isFlush = 0 := by
      intro j
      rw [List.countP_eq_zero]
      intro e he
      rw [List.mem_map] at he
      obtain ⟨i, _, rfl⟩ := he
      simp [isFlush]
    have h := countP_flatMap_pass _ wait hpass (List.range (256 * 3))
    rw [List.length_range] at h
    exact h
  · unfold rainbowCycleTrace
    rw [show (256 * 3) = 768 from by norm_num]
    apply List.flatMap_congr
    intro j hj
    rw [List.mem_range] at hj
    congr 1
    apply List.map_eq_map_iff.mpr
    intro i hi
    rw [List.mem_range] at hi
    rw [rainbow_arg_eq cfg.PIXEL_COUNT h0 h256 i j hi hj]

/-- Witness for C4 at the concrete 44-pixel configuration with zero
wait. -/
theorem C4_rainbowCycle_rounds_witness :
    (rainbowCycle cfg44 0 initialState).flushCount = initialState.flushCount + 768 ∧
    (rainbowCycleTrace cfg44 0).countP isFlush = 768 ∧
    rainbowCycleTrace cfg44 0 =
      (List.range 768).flatMap (fun j =>
        (List.range cfg44.PIXEL_COUNT).map
          (fun i => Event.setPix i (wheel ((i * 256 / cfg44.PIXEL_COUNT + j) % 256))) ++
        [Event.flush, Event.delay 0]) :=
  C4_rainbowCycle_rounds cfg44 0 initialState (by decide) (by decide)

/-- Claim C9: for every wheel position, the three 8-bit channels of the
wheel color sum to exactly 255, so total emitted intensity is constant
across the hue cycle. -/
theorem C9_wheel_channelSum (p : ℕ) : channelSum (wheel p) = 255 := by
  have key : ∀ q, q < 256 → channelSum (wheel q) = 255 := by decide
  have h : wheel p = wheel (p % 256) := by
    unfold wheel
    rw [Nat.mod_mod_of_dvd p dvd_rfl]
  rw [h]
  exact key (p % 256) (Nat.mod_lt p (by norm_num))
